import Mathlib

/-!
Verification of the core of the virgo4 suggestor web service: a shallow
embedding of the suggestion pipeline (`cmd/suggest.go`, `cmd/service.go`,
`cmd/solr.go`, `cmd/config.go`, `providers/bedrock.go`).  External I/O
(the Solr backend, the AI provider, the v4parser call, the HTTP body
binding) is abstracted as explicit outcome parameters; float64 scores are
modelled as real numbers; Go `int` values are modelled as `Int`.
-/

namespace Suggestor

/-- `Suggestion` (cmd/suggest.go): one suggestion, a (type, value) pair. -/
structure Suggestion where
  type : String
  value : String
deriving DecidableEq, Repr

/-- `SuggestionResponse` (cmd/suggest.go): the full set of suggestions. -/
structure SuggestionResponse where
  suggestions : List Suggestion
deriving DecidableEq, Repr

/-- `SolrDocument` (cmd/solr.go): a single result record, of which the
suggestion pipeline reads only `Phrase` and `Score`. -/
structure SolrDocument where
  phrase : String
  score : ℝ

/-- `SolrResponseDocuments` (cmd/solr.go): result records plus metadata;
the pipeline reads `NumFound` and `Docs`. -/
structure SolrResponseDocuments where
  numFound : ℤ
  docs : List SolrDocument

/-- `AIResponse` (package providers): the structured reply of the AI
provider, decoded from the generated JSON. -/
structure AIResponse where
  didYouMean : String
  suggestions : List String

/-- `SolrRequestParams` (cmd/solr.go), restricted to the fields the
suggestion pipeline sets; a field left unset in a Go struct literal holds
its zero value, which is the default here. -/
structure SolrRequestParams where
  debug : Bool := false
  defType : String := ""
  start : ℤ := 0
  rows : ℤ := 0
  fl : List String := []
  fq : List String := []
  q : String := ""
  qf : String := ""
  sort : String := ""

/-- `serviceConfigSolrParams` (cmd/config.go): the per-suggestion-type Solr
parameter bundle (`svc.config.Suggestions.Author.Params`). -/
structure ServiceConfigSolrParams where
  defType : String
  fl : List String
  fq : List String
  qf : String
  sort : String

/-! ### QueryParser (`ParseQuery`, cmd/suggest.go lines 62-87) -/

/-- Go map indexing `parser.FieldValues[key]`: the entry's value list, or
the zero value `[]` when the key is absent.  The map is modelled as an
association list (one entry per distinct field name). -/
def getFieldValues (fieldValues : List (String × List String)) (key : String) :
    List String :=
  match fieldValues with
  | [] => []
  | (k, vs) :: rest => if k = key then vs else getFieldValues rest key

/-- `ParseQuery` (cmd/suggest.go lines 62-87).  `parsed` is the outcome of
`v4parser.ConvertToSolrWithParser`: `none` when that call errors, otherwise
the parser's `FieldValues` map.  `total` is the number of map entries; only
a single-field query whose sole `keyword` entry holds exactly one value is
handled, and that value must not be blank or `*`; the value becomes the
normalized query. -/
def ParseQuery (parsed : Option (List (String × List String))) :
    Except String String :=
  match parsed with
  | none => .error "query parse failure"
  | some fieldValues =>
    if fieldValues.length = 1 ∧ (getFieldValues fieldValues "keyword").length = 1 then
      let keyword := (getFieldValues fieldValues "keyword").headD ""
      if keyword = "" ∨ keyword = "*" then .error "ignoring blank/* keyword query"
      else .ok keyword
    else .error "unhandled query"

/-! ### Verifier (`verifySuggestionResults`, cmd/suggest.go lines 271-302) -/

/-- The Solr request built by `verifySuggestionResults` (cmd/suggest.go
lines 277-286): start 0, rows 0 ("We only care about NumFound"), the
configured author `DefType` and `Sort`, the term as `Q`; `Fl`, `Fq` and
`Qf` are left at their zero values (omitted or commented out in the
source). -/
def verifyRequestParams (sugg : ServiceConfigSolrParams) (query : String) :
    SolrRequestParams :=
  { start := 0
    rows := 0
    defType := sugg.defType
    q := query
    sort := sugg.sort }

/-- The decision of `verifySuggestionResults` (cmd/suggest.go lines
294-301) given the outcome of its Solr query: a query error fails open
(`true`, logged and not propagated — the return type has no error
channel); otherwise the term is valid iff `NumFound > 0`. -/
def verifyDecision (solrResult : Except String SolrResponseDocuments) : Bool :=
  match solrResult with
  | .error _ => true
  | .ok solrRes => decide (0 < solrRes.numFound)

/-! ### Orchestrator (`HandleSuggestionRequest`, cmd/suggest.go lines 168-268) -/

/-- Go map assignment `m[k] = v` on the association-list model: overwrite
the entry for `k` if present, else add one. -/
def mapPut (m : List (String × Bool)) (k : String) (v : Bool) :
    List (String × Bool) :=
  match m with
  | [] => [(k, v)]
  | (k', v') :: rest => if k' = k then (k, v) :: rest else (k', v') :: mapPut rest k v

/-- Go map read `m[k]`, with the Bool zero value `false` for a missing key. -/
def mapGet (m : List (String × Bool)) (k : String) : Bool :=
  match m with
  | [] => false
  | (k', v) :: rest => if k' = k then v else mapGet rest k

/-- The fan-out/receive of `HandleSuggestionRequest` (cmd/suggest.go lines
241-254): one concurrent check is spawned per occurrence of a term in the
AI proposal, each sending `(term, verifySuggestionResults term)` on the
channel, and exactly `len(terms)` results are received and stored into
`resultsMap` keyed by term.  `verify` abstracts `verifySuggestionResults`
as a per-term oracle (fixed within one request) and `arrivals` is the
order in which the channel delivers the results — some permutation of the
proposal's terms. -/
def resultsMapOf (arrivals : List String) (verify : String → Bool) :
    List (String × Bool) :=
  arrivals.foldl (fun m t => mapPut m t (verify t)) []

/-- `HandleSuggestionRequest` (cmd/suggest.go lines 168-268) with external
calls abstracted.  `authorRes` is the result of
`HandleAuthorSuggestionRequest` (never nil in the source: that function
returns a non-nil, empty response on every error, so the nil checks of
lines 179, 191 and 213 always pass).  `aiOutcome` is `none` when
`svc.AIProvider` is nil, otherwise the outcome of
`AIProvider.GetSuggestions`.  With no provider, or on a provider error,
the author suggestions are returned unchanged (lines 189-196 and 209-217);
on success every occurrence of a proposal term whose `resultsMap` entry is
true is emitted as a Suggestion of type "author", in proposal order (lines
256-263); the author baseline is not consulted on that path. -/
def handleSuggestionRequest (authorRes : SuggestionResponse)
    (aiOutcome : Option (Except String AIResponse)) (verify : String → Bool)
    (arrivals : List String) : SuggestionResponse :=
  match aiOutcome with
  | none => authorRes
  | some (.error _) => authorRes
  | some (.ok aiRes) =>
    ⟨(aiRes.suggestions.filter
        (fun term => mapGet (resultsMapOf arrivals verify) term)).map
      (fun term => ⟨"author", term⟩)⟩

/-- `SuggestionHandler` (cmd/service.go lines 174-190): a body that fails
`BindJSON` yields HTTP 400 with no suggestion payload; any other outcome is
HTTP 200 carrying the response of `HandleSuggestionRequest`, whose error
(if any) is logged, never surfaced. -/
def suggestionHandlerEndpoint (bindOk : Bool) (authorRes : SuggestionResponse)
    (aiOutcome : Option (Except String AIResponse)) (verify : String → Bool)
    (arrivals : List String) : ℕ × Option SuggestionResponse :=
  if bindOk then
    (200, some (handleSuggestionRequest authorRes aiOutcome verify arrivals))
  else (400, none)

/-! ### AIRefiner response-text handling (`GetSuggestions`, latest revision
of providers/bedrock.go = src/unnamed/part_016 lines 365-564) -/

/-- The possible ends of `GetSuggestions` once the text payload was
extracted from the provider reply: a decoded `AIResponse`, an error return,
or a Go runtime panic (slice bounds out of range). -/
inductive AIContentOutcome where
  | ok (r : AIResponse)
  | err (msg : String)
  | panicked

/-- `strings.Index(s, sub)` for a one-character `sub`: the index of its
first occurrence, `-1` if absent.  Modelled at character level, which for
the one-byte characters at issue coincides with Go's byte indices. -/
def strIndexChar (s : List Char) (c : Char) : ℤ :=
  match s.findIdx? (· = c) with
  | some i => (i : ℤ)
  | none => -1

/-- `strings.LastIndex(s, sub)` for a one-character `sub`: the index of its
last occurrence, `-1` if absent. -/
def strLastIndexChar (s : List Char) (c : Char) : ℤ :=
  match s.reverse.findIdx? (· = c) with
  | some i => (s.length : ℤ) - 1 - (i : ℤ)
  | none => -1

/-- `strings.TrimSpace`, at character level: drop leading whitespace. -/
def trimLeftChars : List Char → List Char
  | [] => []
  | c :: rest => if c.isWhitespace then trimLeftChars rest else c :: rest

/-- `strings.TrimSpace`, at character level: drop leading and trailing
whitespace. -/
def trimChars (s : List Char) : List Char :=
  (trimLeftChars (trimLeftChars s).reverse).reverse

/-- Go slice expression `s[lo:hi]`: defined when `0 ≤ lo ≤ hi ≤ len(s)`,
a runtime panic (`none`) otherwise. -/
def goSlice (s : List Char) (lo hi : ℤ) : Option (List Char) :=
  if 0 ≤ lo ∧ lo ≤ hi ∧ hi ≤ (s.length : ℤ) then
    some ((s.drop lo.toNat).take (hi - lo).toNat)
  else none

/-- The response-text handling at the end of `GetSuggestions`
(src/unnamed/part_016 lines 547-561), with the JSON decoder abstracted as
`decode` (`none` = `json.Unmarshal` error).  Empty content is an error
return; otherwise the content is trimmed and sliced as
`content[startIdx : endIdx+1]` where `startIdx` is the index of the first
`{` and `endIdx` that of the last `}` — under Go slice semantics, so that
out-of-range bounds (e.g. `startIdx = -1` when the text holds no `{`) are
a runtime panic, not an error return; the slice, when defined, is handed
to the decoder. -/
def processAIContent (decode : String → Option AIResponse) (content : String) :
    AIContentOutcome :=
  if content = "" then .err "empty content from AI provider"
  else
    let cs := trimChars content.toList
    match goSlice cs (strIndexChar cs '{') (strLastIndexChar cs '}' + 1) with
    | none => .panicked
    | some span =>
      match decode (String.mk span) with
      | none => .err "failed to parse generated text as JSON"
      | some aiResponse => .ok aiResponse

noncomputable section

/-! ### Statistics (gonum `stat`, as called from
`HandleAuthorSuggestionRequest`, cmd/suggest.go lines 123-138) -/

/-- `stat.Mean(scores, nil)` (gonum): the arithmetic mean, sum over length.
(In Lean, division by zero yields zero, so `meanOf [] = 0`.) -/
def meanOf (xs : List ℝ) : ℝ := xs.sum / xs.length

/-- `stat.Variance(scores, nil)` (gonum): the compensated two-pass *sample*
variance.  With `m` the mean, gonum computes `ss = Σ (v-m)²` and the
compensation term `comp = Σ (v-m)` and returns `(ss - comp*comp/n) / (n-1)`:
Bessel-corrected, dividing by `n-1`, not by `n`. -/
def varianceOf (xs : List ℝ) : ℝ :=
  ((xs.map (fun v => (v - meanOf xs) * (v - meanOf xs))).sum -
      (xs.map (fun v => v - meanOf xs)).sum *
        (xs.map (fun v => v - meanOf xs)).sum / xs.length) /
    ((xs.length : ℝ) - 1)

/-- `stddev := math.Sqrt(variance)` (cmd/suggest.go line 137). -/
def stddevOf (xs : List ℝ) : ℝ := Real.sqrt (varianceOf xs)

/-- `cutoff := mean + 2*stddev` (cmd/suggest.go line 138). -/
def cutoffOf (xs : List ℝ) : ℝ := meanOf xs + 2 * stddevOf xs

/-- Modelled from the spec for comparison with the code (§4.3 step 2:
"population standard deviation σ over the full score set (not a sample)"):
the population variance `Σ (v-μ)² / n`. -/
def populationVarianceSpec (xs : List ℝ) : ℝ :=
  (xs.map (fun v => (v - meanOf xs) * (v - meanOf xs))).sum / xs.length

/-! ### ConfidenceFilter (`HandleAuthorSuggestionRequest`, cmd/suggest.go
lines 91-164) -/

/-- The inclusion loop of `HandleAuthorSuggestionRequest` (cmd/suggest.go
lines 151-157): walk the docs in retrieval order; break at the first doc
whose score is below the cutoff, or once the output has reached the
configured limit; otherwise append a Suggestion of type "author" holding
the doc's phrase. -/
def suggestionLoop (cutoff : ℝ) (limit : ℤ) :
    List SolrDocument → List Suggestion → List Suggestion
  | [], acc => acc
  | doc :: rest, acc =>
    if doc.score < cutoff ∨ limit ≤ (acc.length : ℤ) then acc
    else suggestionLoop cutoff limit rest (acc ++ [⟨"author", doc.phrase⟩])

/-- `HandleAuthorSuggestionRequest` (cmd/suggest.go lines 91-164) with its
two external calls abstracted: `parseResult` is the outcome of
`ParseQuery` and `solrResult` that of `SolrQuery`; `limit` is the
configured `Suggestions.Author.Limit`.  Returns the response paired with
the returned error, if any.  On a parse or Solr error the suggestions are
empty; on an empty result set they are empty with no error; otherwise the
scores are collected in doc order, the cutoff computed and the docs walked
by `suggestionLoop` starting from the empty output.  (The source sorts the
score slice ascending with `sort.Float64s` before the statistics; the
sorted slice is a permutation of the original and the cutoff is
permutation-invariant — `cutoffOf_perm` below — while the median/min/max
the sort enables feed only the verbose log, so the embedding computes the
cutoff on the scores in retrieval order.) -/
def handleAuthorSuggestionRequest (parseResult : Except String String)
    (solrResult : Except String SolrResponseDocuments) (limit : ℤ) :
    SuggestionResponse × Option String :=
  match parseResult with
  | .error e => (⟨[]⟩, some e)
  | .ok _ =>
    match solrResult with
    | .error e => (⟨[]⟩, some e)
    | .ok solrRes =>
      if solrRes.docs.length = 0 then (⟨[]⟩, none)
      else
        (⟨suggestionLoop (cutoffOf (solrRes.docs.map SolrDocument.score)) limit
            solrRes.docs []⟩, none)

end

/-! ### Helper lemmas -/

lemma sum_map_sub_const (xs : List ℝ) (c : ℝ) :
    (xs.map (fun v => v - c)).sum = xs.sum - xs.length * c := by
  induction xs with
  | nil => simp
  | cons hd tl ih =>
    simp only [List.map_cons, List.sum_cons, List.length_cons, ih]
    push_cast
    ring

lemma sum_sub_meanOf (xs : List ℝ) :
    (xs.map (fun v => v - meanOf xs)).sum = 0 := by
  rcases eq_or_ne xs [] with h | h
  · simp [h]
  · have hn : (xs.length : ℝ) ≠ 0 :=
      Nat.cast_ne_zero.mpr (fun hl => h (List.length_eq_zero.mp hl))
    rw [sum_map_sub_const, meanOf]
    field_simp

/-- In exact arithmetic the compensation term vanishes: gonum's sample
variance is the sum of squared deviations about the mean over `n-1`. -/
lemma varianceOf_eq (xs : List ℝ) :
    varianceOf xs =
      (xs.map (fun v => (v - meanOf xs) * (v - meanOf xs))).sum /
        ((xs.length : ℝ) - 1) := by
  unfold varianceOf
  rw [sum_sub_meanOf]
  simp

lemma meanOf_perm {xs ys : List ℝ} (h : xs.Perm ys) : meanOf xs = meanOf ys := by
  unfold meanOf
  rw [h.sum_eq, h.length_eq]

/-- The cutoff is invariant under permutation of the score list (this is
what lets `handleAuthorSuggestionRequest` omit the source's in-place
ascending sort of the scores). -/
lemma cutoffOf_perm {xs ys : List ℝ} (h : xs.Perm ys) :
    cutoffOf xs = cutoffOf ys := by
  have hmean := meanOf_perm h
  have hvar : varianceOf xs = varianceOf ys := by
    unfold varianceOf
    rw [hmean, h.length_eq, (h.map _).sum_eq, (h.map _).sum_eq]
  unfold cutoffOf stddevOf
  rw [hmean, hvar]

/-- Characterization of the inclusion loop: starting from accumulator
`acc` it appends the descending-score prefix of docs scoring at least the
cutoff, truncated to the room left under the limit. -/
lemma suggestionLoop_eq (cutoff : ℝ) (limit : ℤ) (docs : List SolrDocument)
    (acc : List Suggestion) :
    suggestionLoop cutoff limit docs acc =
      acc ++ ((docs.takeWhile (fun d => decide (cutoff ≤ d.score))).take
        (limit - acc.length).toNat).map
          (fun d => (⟨"author", d.phrase⟩ : Suggestion)) := by
  induction docs generalizing acc with
  | nil => simp [suggestionLoop]
  | cons doc rest ih =>
    by_cases h1 : doc.score < cutoff
    · have hpass : decide (cutoff ≤ doc.score) = false := by
        simp [not_le.mpr h1]
      rw [suggestionLoop, if_pos (Or.inl h1), List.takeWhile_cons, hpass]
      simp
    · by_cases h2 : limit ≤ (acc.length : ℤ)
      · have hz : (limit - acc.length).toNat = 0 := by omega
        rw [suggestionLoop, if_pos (Or.inr h2), hz]
        simp
      · have hpass : decide (cutoff ≤ doc.score) = true := by
          simp [not_lt.mp h1]
        have hcond : ¬(doc.score < cutoff ∨ limit ≤ (acc.length : ℤ)) := by
          tauto
        rw [suggestionLoop, if_neg hcond, ih, List.takeWhile_cons, hpass]
        have hlen : ((acc ++ [(⟨"author", doc.phrase⟩ : Suggestion)]).length : ℤ) =
            (acc.length : ℤ) + 1 := by
          simp
        have hsucc : (limit - acc.length).toNat =
            (limit - ((acc.length : ℤ) + 1)).toNat + 1 := by omega
        rw [hlen, hsucc]
        simp [List.take_succ_cons]

lemma mapGet_mapPut (m : List (String × Bool)) (k k' : String) (v : Bool) :
    mapGet (mapPut m k v) k' = if k = k' then v else mapGet m k' := by
  induction m with
  | nil => simp [mapPut, mapGet]
  | cons p rest ih =>
    obtain ⟨pk, pv⟩ := p
    by_cases hpk : pk = k
    · subst hpk
      by_cases hp' : pk = k' <;> simp [mapPut, mapGet, hp']
    · by_cases hp' : pk = k'
      · subst hp'
        have : ¬ k = pk := fun h => hpk h.symm
        simp [mapPut, mapGet, hpk, this]
      · simp [mapPut, mapGet, hpk, hp', ih]

lemma mapGet_foldl_mapPut (arrivals : List String) (verify : String → Bool)
    (m : List (String × Bool)) (t : String) :
    mapGet (arrivals.foldl (fun m' x => mapPut m' x (verify x)) m) t =
      if t ∈ arrivals then verify t else mapGet m t := by
  induction arrivals generalizing m with
  | nil => simp
  | cons a rest ih =>
    rw [List.foldl_cons, ih]
    by_cases hmem : t ∈ rest
    · simp [hmem]
    · by_cases ha : a = t
      · subst ha
        simp [hmem, mapGet_mapPut]
      · have : ¬ t = a := fun h => ha h.symm
        simp [hmem, mapGet_mapPut, ha, this]

/-- Every term of the proposal reads back from the results map as its own
verification outcome. -/
lemma mapGet_resultsMapOf {arrivals : List String} {verify : String → Bool}
    {t : String} (h : t ∈ arrivals) :
    mapGet (resultsMapOf arrivals verify) t = verify t := by
  rw [resultsMapOf, mapGet_foldl_mapPut, if_pos h]

lemma mem_keys_mapPut (m : List (String × Bool)) (k v) (k' : String) :
    k' ∈ (mapPut m k v).map Prod.fst ↔ k' = k ∨ k' ∈ m.map Prod.fst := by
  induction m with
  | nil => simp [mapPut]
  | cons p rest ih =>
    obtain ⟨pk, pv⟩ := p
    by_cases hpk : pk = k
    · subst hpk
      simp [mapPut]
    · simp [mapPut, hpk, ih]
      tauto

lemma nodup_keys_mapPut (m : List (String × Bool)) (k v)
    (h : (m.map Prod.fst).Nodup) : ((mapPut m k v).map Prod.fst).Nodup := by
  induction m with
  | nil => simp [mapPut]
  | cons p rest ih =>
    obtain ⟨pk, pv⟩ := p
    simp only [List.map_cons, List.nodup_cons] at h
    by_cases hpk : pk = k
    · subst hpk
      simp [mapPut, h.1, h.2]
    · have hmem : pk ∉ ((mapPut rest k v).map Prod.fst) := by
        rw [mem_keys_mapPut]
        push_neg
        exact ⟨hpk, h.1⟩
      simp only [mapPut, if_neg hpk, List.map_cons, List.nodup_cons]
      exact ⟨hmem, ih h.2⟩

lemma nodup_keys_foldl (arrivals : List String) (verify : String → Bool)
    (m : List (String × Bool)) (h : (m.map Prod.fst).Nodup) :
    ((arrivals.foldl (fun m' x => mapPut m' x (verify x)) m).map Prod.fst).Nodup := by
  induction arrivals generalizing m with
  | nil => simpa using h
  | cons a rest ih => exact ih _ (nodup_keys_mapPut _ _ _ h)

/-- The results map holds no duplicate keys. -/
lemma nodup_keys_resultsMapOf (arrivals : List String) (verify : String → Bool) :
    ((resultsMapOf arrivals verify).map Prod.fst).Nodup :=
  nodup_keys_foldl arrivals verify [] (by simp)

lemma mem_keys_foldl (arrivals : List String) (verify : String → Bool)
    (m : List (String × Bool)) (t : String) :
    (t ∈ (arrivals.foldl (fun m' x => mapPut m' x (verify x)) m).map Prod.fst) ↔
      t ∈ arrivals ∨ t ∈ m.map Prod.fst := by
  induction arrivals generalizing m with
  | nil => simp
  | cons a rest ih =>
    rw [List.foldl_cons, ih, mem_keys_mapPut, List.mem_cons]
    tauto

/-- The keys of the results map are exactly the received terms. -/
lemma mem_keys_resultsMapOf (arrivals : List String) (verify : String → Bool)
    (t : String) :
    t ∈ (resultsMapOf arrivals verify).map Prod.fst ↔ t ∈ arrivals := by
  rw [resultsMapOf, mem_keys_foldl]
  simp

/-- On a successful AI call the output is the proposal filtered by the
verification oracle, mapped to type "author" in proposal order, whatever
the author baseline and the channel arrival order. -/
lemma handleSuggestionRequest_ok (authorRes : SuggestionResponse)
    (aiRes : AIResponse) (verify : String → Bool) {arrivals : List String}
    (h : arrivals.Perm aiRes.suggestions) :
    handleSuggestionRequest authorRes (some (.ok aiRes)) verify arrivals =
      ⟨(aiRes.suggestions.filter verify).map
        (fun term => (⟨"author", term⟩ : Suggestion))⟩ := by
  have hfilter : aiRes.suggestions.filter
      (fun term => mapGet (resultsMapOf arrivals verify) term) =
        aiRes.suggestions.filter verify := by
    apply List.filter_congr
    intro t ht
    rw [mapGet_resultsMapOf (h.mem_iff.mpr ht)]
  have hred : handleSuggestionRequest authorRes (some (.ok aiRes)) verify arrivals =
      ⟨(aiRes.suggestions.filter
          (fun term => mapGet (resultsMapOf arrivals verify) term)).map
        (fun term => (⟨"author", term⟩ : Suggestion))⟩ := rfl
  rw [hred, hfilter]

/-- A single score is its own cutoff: the deviation sums vanish, so the
sample variance term is `0/0 = 0` and the cutoff is the mean, the score
itself.  (In IEEE arithmetic gonum returns `0/0 = NaN` here and the
comparison `score < NaN` is false, so the observable filter behaviour is
the same: the sole candidate is admitted.) -/
lemma cutoffOf_single (x : ℝ) : cutoffOf [x] = x := by
  simp [cutoffOf, stddevOf, varianceOf, meanOf]

/-- A sole candidate scoring exactly the cutoff is admitted (the loop's
strict `<` break test fails), provided the limit admits at least one. -/
lemma suggestionLoop_single_pass (phrase : String) (x : ℝ) (limit : ℤ)
    (h : 1 ≤ limit) :
    suggestionLoop x limit [⟨phrase, x⟩] [] =
      [(⟨"author", phrase⟩ : Suggestion)] := by
  have hcond : ¬((SolrDocument.mk phrase x).score < x ∨
      limit ≤ ((([] : List Suggestion)).length : ℤ)) := by
    push_neg
    refine ⟨le_refl x, ?_⟩
    simp only [List.length_nil, Nat.cast_zero]
    omega
  rw [suggestionLoop, if_neg hcond]
  simp [suggestionLoop]

lemma meanOf_example : meanOf [100, 10, 10, 10, 10] = 28 := by
  norm_num [meanOf]

lemma varianceOf_example : varianceOf [100, 10, 10, 10, 10] = 1620 := by
  rw [varianceOf_eq]
  simp only [meanOf_example]
  norm_num

lemma cutoffOf_example :
    cutoffOf [100, 10, 10, 10, 10] = 28 + 2 * Real.sqrt 1620 := by
  rw [cutoffOf, stddevOf, varianceOf_example, meanOf_example]

lemma sqrt1620_gt : 36 < Real.sqrt 1620 := by
  nlinarith [Real.sq_sqrt (show (0:ℝ) ≤ 1620 by norm_num),
    Real.sqrt_nonneg (1620 : ℝ)]

lemma sqrt1620_gt40 : 40 < Real.sqrt 1620 := by
  nlinarith [Real.sq_sqrt (show (0:ℝ) ≤ 1620 by norm_num),
    Real.sqrt_nonneg (1620 : ℝ)]

lemma sqrt1620_lt : Real.sqrt 1620 < 40.5 := by
  nlinarith [Real.sq_sqrt (show (0:ℝ) ≤ 1620 by norm_num),
    Real.sqrt_nonneg (1620 : ℝ)]

/-- With the sample-variance cutoff the top scorer 100 of the example is
already below the cutoff, so the loop breaks immediately. -/
lemma suggestionLoop_example :
    suggestionLoop (cutoffOf [100, 10, 10, 10, 10]) 10
      [⟨"a", 100⟩, ⟨"b", 10⟩, ⟨"c", 10⟩, ⟨"d", 10⟩, ⟨"e", 10⟩] [] = [] := by
  have h100 : (100 : ℝ) < cutoffOf [100, 10, 10, 10, 10] := by
    rw [cutoffOf_example]
    nlinarith [sqrt1620_gt]
  rw [suggestionLoop, if_pos (Or.inl h100)]

/-- Shared concrete computation: the full author pipeline on the spec's
example scores (docs in descending-score retrieval order, limit 10)
returns no suggestions, because the top score 100 is below the
sample-deviation cutoff `28 + 2·√1620 ≈ 108.5`. -/
lemma handleAuthor_example_empty :
    (handleAuthorSuggestionRequest (.ok "q")
        (.ok ⟨5, [⟨"a", 100⟩, ⟨"b", 10⟩, ⟨"c", 10⟩, ⟨"d", 10⟩, ⟨"e", 10⟩]⟩)
        10).1.suggestions = [] := by
  have hred : (handleAuthorSuggestionRequest (.ok "q")
      (.ok ⟨5, [⟨"a", 100⟩, ⟨"b", 10⟩, ⟨"c", 10⟩, ⟨"d", 10⟩, ⟨"e", 10⟩]⟩)
      10).1.suggestions =
        suggestionLoop (cutoffOf [100, 10, 10, 10, 10]) 10
          [⟨"a", 100⟩, ⟨"b", 10⟩, ⟨"c", 10⟩, ⟨"d", 10⟩, ⟨"e", 10⟩] [] := rfl
  rw [hred, suggestionLoop_example]

/-! ### Claims -/

/-- C1: the claim asserts the cutoff is mean plus two *population* standard
deviations and that on scores [10,10,10,10,100] the cutoff is ≈100 with
exactly one candidate passing.  Counterexample: the code (gonum
`stat.Variance`) uses the Bessel-corrected *sample* deviation; the
population cutoff of the example is exactly 100, the code's cutoff is not
100 (it is 28 + 2·√1620 > 100), and the filter admits no candidate at all
on that input. -/
theorem C1_counterexample :
    meanOf [100, 10, 10, 10, 10] +
        2 * Real.sqrt (populationVarianceSpec [100, 10, 10, 10, 10]) = 100 ∧
    cutoffOf [100, 10, 10, 10, 10] ≠ 100 ∧
    (handleAuthorSuggestionRequest (.ok "q")
        (.ok ⟨5, [⟨"a", 100⟩, ⟨"b", 10⟩, ⟨"c", 10⟩, ⟨"d", 10⟩, ⟨"e", 10⟩]⟩)
        10).1.suggestions = [] := by
  refine ⟨?_, ?_, handleAuthor_example_empty⟩
  · have hpop : populationVarianceSpec [100, 10, 10, 10, 10] = 1296 := by
      rw [populationVarianceSpec]
      simp only [meanOf_example]
      norm_num
    rw [hpop, meanOf_example,
      show (1296 : ℝ) = 36 ^ 2 by norm_num,
      Real.sqrt_sq (by norm_num : (0:ℝ) ≤ 36)]
    norm_num
  · rw [cutoffOf_example]
    nlinarith [sqrt1620_gt]

/-- C1 (amended): the cutoff equals the mean plus two *sample* standard
deviations (squared deviations about the mean divided by `n-1`, as gonum's
`stat.Variance` computes); on the example scores the cutoff is
`28 + 2·√1620`, which lies strictly between 108 and 109 (≈108.5), and no
candidate passes the filter. -/
theorem C1_amended :
    (∀ xs : List ℝ, cutoffOf xs = meanOf xs + 2 * Real.sqrt
        ((xs.map (fun v => (v - meanOf xs) * (v - meanOf xs))).sum /
          ((xs.length : ℝ) - 1))) ∧
    cutoffOf [100, 10, 10, 10, 10] = 28 + 2 * Real.sqrt 1620 ∧
    108 < cutoffOf [100, 10, 10, 10, 10] ∧
    cutoffOf [100, 10, 10, 10, 10] < 109 ∧
    (handleAuthorSuggestionRequest (.ok "q")
        (.ok ⟨5, [⟨"a", 100⟩, ⟨"b", 10⟩, ⟨"c", 10⟩, ⟨"d", 10⟩, ⟨"e", 10⟩]⟩)
        10).1.suggestions = [] := by
  refine ⟨fun xs => ?_, cutoffOf_example, ?_, ?_, handleAuthor_example_empty⟩
  · rw [cutoffOf, stddevOf, varianceOf_eq]
  · rw [cutoffOf_example]
    nlinarith [sqrt1620_gt40]
  · rw [cutoffOf_example]
    nlinarith [sqrt1620_lt]

/-- C2: with no AI provider, or with a provider error, the orchestrator
returns the confidence-filtered author baseline unchanged; hence the
output is non-empty whenever the baseline is. -/
theorem C2_fallback_to_baseline (parseResult : Except String String)
    (solrResult : Except String SolrResponseDocuments) (limit : ℤ)
    (verify : String → Bool) (arrivals : List String) (e : String) :
    handleSuggestionRequest
        (handleAuthorSuggestionRequest parseResult solrResult limit).1
        none verify arrivals =
      (handleAuthorSuggestionRequest parseResult solrResult limit).1 ∧
    handleSuggestionRequest
        (handleAuthorSuggestionRequest parseResult solrResult limit).1
        (some (.error e)) verify arrivals =
      (handleAuthorSuggestionRequest parseResult solrResult limit).1 ∧
    ((handleAuthorSuggestionRequest parseResult solrResult limit).1.suggestions ≠ [] →
      (handleSuggestionRequest
          (handleAuthorSuggestionRequest parseResult solrResult limit).1
          none verify arrivals).suggestions ≠ [] ∧
      (handleSuggestionRequest
          (handleAuthorSuggestionRequest parseResult solrResult limit).1
          (some (.error e)) verify arrivals).suggestions ≠ []) :=
  ⟨rfl, rfl, fun h => ⟨h, h⟩⟩

/-- C2 witness: a concrete non-empty baseline survives both the
no-provider and the provider-error paths. -/
theorem C2_witness :
    handleSuggestionRequest
        (handleAuthorSuggestionRequest (.ok "twain")
          (.ok ⟨1, [⟨"Twain, Mark", 95⟩]⟩) 10).1
        none (fun _ => false) [] =
      (handleAuthorSuggestionRequest (.ok "twain")
        (.ok ⟨1, [⟨"Twain, Mark", 95⟩]⟩) 10).1 ∧
    handleSuggestionRequest
        (handleAuthorSuggestionRequest (.ok "twain")
          (.ok ⟨1, [⟨"Twain, Mark", 95⟩]⟩) 10).1
        (some (.error "provider unreachable")) (fun _ => false) [] =
      (handleAuthorSuggestionRequest (.ok "twain")
        (.ok ⟨1, [⟨"Twain, Mark", 95⟩]⟩) 10).1 ∧
    ((handleAuthorSuggestionRequest (.ok "twain")
        (.ok ⟨1, [⟨"Twain, Mark", 95⟩]⟩) 10).1.suggestions ≠ [] →
      (handleSuggestionRequest
          (handleAuthorSuggestionRequest (.ok "twain")
            (.ok ⟨1, [⟨"Twain, Mark", 95⟩]⟩) 10).1
          none (fun _ => false) []).suggestions ≠ [] ∧
      (handleSuggestionRequest
          (handleAuthorSuggestionRequest (.ok "twain")
            (.ok ⟨1, [⟨"Twain, Mark", 95⟩]⟩) 10).1
          (some (.error "provider unreachable")) (fun _ => false) []).suggestions ≠ []) :=
  C2_fallback_to_baseline (.ok "twain") (.ok ⟨1, [⟨"Twain, Mark", 95⟩]⟩) 10
    (fun _ => false) [] "provider unreachable"

/-- C3: on a successful AI call the final output is exactly the proposed
terms whose verification is true, each of type "author", in proposal
order; it does not depend on the pre-AI baseline (`authorRes` is
universally quantified and absent from the right-hand side). -/
theorem C3_ai_replaces_baseline (authorRes : SuggestionResponse)
    (aiRes : AIResponse) (verify : String → Bool) (arrivals : List String)
    (h : arrivals.Perm aiRes.suggestions) :
    handleSuggestionRequest authorRes (some (.ok aiRes)) verify arrivals =
      ⟨(aiRes.suggestions.filter verify).map
        (fun term => (⟨"author", term⟩ : Suggestion))⟩ :=
  handleSuggestionRequest_ok authorRes aiRes verify h

/-- C3 witness: the spec's end-to-end scenario — proposal
["Twain, Mark", "Clemens, Samuel"], both verified — yields both terms as
type "author" in that order, discarding a non-empty baseline. -/
theorem C3_witness :
    handleSuggestionRequest ⟨[⟨"author", "Old"⟩]⟩
        (some (.ok (AIResponse.mk "" ["Twain, Mark", "Clemens, Samuel"])))
        (fun _ => true) ["Twain, Mark", "Clemens, Samuel"] =
      ⟨((AIResponse.mk "" ["Twain, Mark", "Clemens, Samuel"]).suggestions.filter
          (fun _ => true)).map (fun term => (⟨"author", term⟩ : Suggestion))⟩ :=
  C3_ai_replaces_baseline ⟨[⟨"author", "Old"⟩]⟩
    (AIResponse.mk "" ["Twain, Mark", "Clemens, Samuel"]) (fun _ => true)
    ["Twain, Mark", "Clemens, Samuel"] (List.Perm.refl _)

/-- C4: the verification request is count-only (rows 0, start 0, the term
as q, no field list, no filter queries, no qf boost) and the decision is
valid iff the backend's total-match count is positive, with any backend
error failing open to `true` (the Bool return type has no error channel,
so the error cannot propagate). -/
theorem C4_verification (sugg : ServiceConfigSolrParams) (query : String)
    (solrRes : SolrResponseDocuments) (e : String) :
    (verifyRequestParams sugg query).rows = 0 ∧
    (verifyRequestParams sugg query).start = 0 ∧
    (verifyRequestParams sugg query).q = query ∧
    (verifyRequestParams sugg query).fl = [] ∧
    (verifyRequestParams sugg query).fq = [] ∧
    (verifyRequestParams sugg query).qf = "" ∧
    (verifyDecision (.ok solrRes) = true ↔ 0 < solrRes.numFound) ∧
    verifyDecision (.error e) = true := by
  refine ⟨rfl, rfl, rfl, rfl, rfl, rfl, ?_, rfl⟩
  simp [verifyDecision]

/-- C5: the claim says a text with no valid `{`…`}` object span yields a
ProviderError.  In the code, non-empty content holding no `{` makes
`strings.Index` return `-1` and the unguarded slice
`content[startIdx:endIdx+1]` then panics (slice bounds out of range)
instead of returning an error; the empty-content case does return the
error the claim describes. -/
theorem C5_no_brace_panics (decode : String → Option AIResponse) :
    processAIContent decode "The query looks fine." = .panicked ∧
    processAIContent decode "" = .err "empty content from AI provider" :=
  ⟨rfl, rfl⟩

/-- C6: `ParseQuery` succeeds with normalized term `term` exactly when the
parsed form is the single field "keyword" holding exactly the one value
`term`, non-empty and distinct from "*"; every other shape (parse failure,
multi-field, missing or multi-value keyword, blank or wildcard keyword)
fails. -/
theorem C6_parse_query (parsed : Option (List (String × List String)))
    (term : String) :
    ParseQuery parsed = .ok term ↔
      parsed = some [("keyword", [term])] ∧ term ≠ "" ∧ term ≠ "*" := by
  constructor
  · intro h
    match parsed with
    | none => simp [ParseQuery] at h
    | some [] => simp [ParseQuery, getFieldValues] at h
    | some ((k, vs) :: []) =>
      by_cases hk : k = "keyword"
      · subst hk
        match vs with
        | [] => simp [ParseQuery, getFieldValues] at h
        | v :: [] =>
          by_cases hb : v = "" ∨ v = "*"
          · simp [ParseQuery, getFieldValues, hb] at h
          · push_neg at hb
            simp only [ParseQuery, getFieldValues, if_pos rfl, List.length_cons,
              List.length_nil, List.length_singleton, List.headD_cons,
              and_self, if_true, hb.1, hb.2, or_self, if_false] at h
            injection h with hv
            subst hv
            exact ⟨rfl, hb.1, hb.2⟩
        | v :: w :: rest => simp [ParseQuery, getFieldValues] at h
      · simp [ParseQuery, getFieldValues, hk] at h
    | some (p :: q :: rest) => simp [ParseQuery] at h
  · rintro ⟨rfl, h1, h2⟩
    simp [ParseQuery, getFieldValues, h1, h2]

/-- C7: for a non-negative configured limit the filter loop emits exactly
the longest prefix of in-order candidates scoring at least the cutoff,
truncated to the limit — so it never exceeds the limit, never includes a
candidate below the cutoff, and stops at the first candidate failing
either condition. -/
theorem C7_filter_bounds (cutoff : ℝ) (limit : ℤ) (docs : List SolrDocument)
    (h : 0 ≤ limit) :
    suggestionLoop cutoff limit docs [] =
      ((docs.takeWhile (fun d => decide (cutoff ≤ d.score))).take limit.toNat).map
        (fun d => (⟨"author", d.phrase⟩ : Suggestion)) ∧
    ((suggestionLoop cutoff limit docs []).length : ℤ) ≤ limit ∧
    ∀ s ∈ suggestionLoop cutoff limit docs [],
      ∃ d ∈ docs, cutoff ≤ d.score ∧ s = ⟨"author", d.phrase⟩ := by
  have heq := suggestionLoop_eq cutoff limit docs []
  simp only [List.length_nil, Nat.cast_zero, sub_zero, List.nil_append] at heq
  refine ⟨heq, ?_, ?_⟩
  · rw [heq]
    have hlen : (((docs.takeWhile (fun d => decide (cutoff ≤ d.score))).take
        limit.toNat).map (fun d => (⟨"author", d.phrase⟩ : Suggestion))).length ≤
          limit.toNat := by
      rw [List.length_map]
      exact List.length_take_le _ _
    omega
  · intro s hs
    rw [heq] at hs
    obtain ⟨d, hd, rfl⟩ := List.mem_map.mp hs
    have hd' : d ∈ docs.takeWhile (fun d => decide (cutoff ≤ d.score)) :=
      List.take_subset _ _ hd
    have hp := List.mem_takeWhile_imp hd'
    exact ⟨d, (List.takeWhile_sublist _).subset hd', by simpa using hp, rfl⟩

/-- C7 witness: the property at cutoff 0, limit 2 and a concrete
two-candidate list whose second candidate scores below the cutoff. -/
theorem C7_witness :
    (0 : ℤ) ≤ 2 ∧
    (suggestionLoop 0 2 [⟨"a", 1⟩, ⟨"b", -1⟩] [] =
        ((([⟨"a", 1⟩, ⟨"b", -1⟩] : List SolrDocument).takeWhile
          (fun d => decide ((0 : ℝ) ≤ d.score))).take (2 : ℤ).toNat).map
            (fun d => (⟨"author", d.phrase⟩ : Suggestion)) ∧
      ((suggestionLoop 0 2 [⟨"a", 1⟩, ⟨"b", -1⟩] []).length : ℤ) ≤ 2 ∧
      ∀ s ∈ suggestionLoop 0 2 [⟨"a", 1⟩, ⟨"b", -1⟩] [],
        ∃ d ∈ ([⟨"a", 1⟩, ⟨"b", -1⟩] : List SolrDocument),
          (0 : ℝ) ≤ d.score ∧ s = ⟨"author", d.phrase⟩) :=
  ⟨by norm_num, C7_filter_bounds 0 2 [⟨"a", 1⟩, ⟨"b", -1⟩] (by norm_num)⟩

/-- C8: the filter on an empty candidate list yields the empty list (both
at loop level and through the whole author handler, which short-circuits
on zero docs), and a single candidate is always admitted when the limit
allows one, because its cutoff equals its own score and the inclusion
comparison is not-strictly-below. -/
theorem C8_edge_cases (limit : ℤ) (phrase : String) (score c : ℝ)
    (h : 1 ≤ limit) :
    suggestionLoop c limit [] [] = [] ∧
    handleAuthorSuggestionRequest (.ok "q") (.ok ⟨0, []⟩) limit =
      (⟨[]⟩, none) ∧
    cutoffOf [score] = score ∧
    suggestionLoop (cutoffOf [score]) limit [⟨phrase, score⟩] [] =
      [(⟨"author", phrase⟩ : Suggestion)] := by
  refine ⟨rfl, rfl, cutoffOf_single score, ?_⟩
  rw [cutoffOf_single]
  exact suggestionLoop_single_pass phrase score limit h

/-- C8 witness: the spec's instance — score 5.0, maxCount 10. -/
theorem C8_witness :
    (1 : ℤ) ≤ 10 ∧
    (suggestionLoop 0 10 [] [] = [] ∧
      handleAuthorSuggestionRequest (.ok "q") (.ok ⟨0, []⟩) 10 =
        (⟨[]⟩, none) ∧
      cutoffOf [5] = 5 ∧
      suggestionLoop (cutoffOf [5]) 10 [⟨"x", 5⟩] [] =
        [(⟨"author", "x"⟩ : Suggestion)]) :=
  ⟨by norm_num, C8_edge_cases 10 "x" 5 0 (by norm_num)⟩

/-- C9 counterexample: the claim says any internal backend/provider
failure yields an empty list.  Concretely: the backend succeeds with one
candidate, the baseline is the non-empty
`[{author, "Twain, Mark"}]`, and when the AI provider then fails the
endpoint answers 200 with that non-empty baseline — a provider failure
whose output is not the empty list. -/
theorem C9_counterexample :
    (handleAuthorSuggestionRequest (.ok "twain")
        (.ok ⟨1, [⟨"Twain, Mark", 95⟩]⟩) 10).1.suggestions =
      [(⟨"author", "Twain, Mark"⟩ : Suggestion)] ∧
    suggestionHandlerEndpoint true
        (handleAuthorSuggestionRequest (.ok "twain")
          (.ok ⟨1, [⟨"Twain, Mark", 95⟩]⟩) 10).1
        (some (.error "provider unreachable")) (fun _ => false) [] =
      (200, some (handleAuthorSuggestionRequest (.ok "twain")
        (.ok ⟨1, [⟨"Twain, Mark", 95⟩]⟩) 10).1) ∧
    [(⟨"author", "Twain, Mark"⟩ : Suggestion)] ≠ [] := by
  have hred : (handleAuthorSuggestionRequest (.ok "twain")
      (.ok ⟨1, [⟨"Twain, Mark", 95⟩]⟩) 10).1.suggestions =
        suggestionLoop (cutoffOf [95]) 10 [⟨"Twain, Mark", 95⟩] [] := rfl
  have hbase : (handleAuthorSuggestionRequest (.ok "twain")
      (.ok ⟨1, [⟨"Twain, Mark", 95⟩]⟩) 10).1.suggestions =
        [(⟨"author", "Twain, Mark"⟩ : Suggestion)] := by
    rw [hred, cutoffOf_single]
    exact suggestionLoop_single_pass _ _ _ (by norm_num)
  exact ⟨hbase, rfl, by simp⟩

/-- C9 (amended): with a well-formed body the endpoint always answers 200
carrying the orchestrator's response (never an error status); a parse
failure or a backend failure makes the author baseline empty; but an AI
provider failure yields the filtered baseline unchanged, which may be
non-empty. -/
theorem C9_amended :
    (∀ (authorRes : SuggestionResponse)
        (ai : Option (Except String AIResponse)) (verify : String → Bool)
        (arrivals : List String),
      suggestionHandlerEndpoint true authorRes ai verify arrivals =
        (200, some (handleSuggestionRequest authorRes ai verify arrivals))) ∧
    (∀ (e : String) (solrResult : Except String SolrResponseDocuments)
        (limit : ℤ),
      handleAuthorSuggestionRequest (.error e) solrResult limit =
        (⟨[]⟩, some e)) ∧
    (∀ (t e : String) (limit : ℤ),
      handleAuthorSuggestionRequest (.ok t) (.error e) limit =
        (⟨[]⟩, some e)) ∧
    (∀ (authorRes : SuggestionResponse) (verify : String → Bool)
        (arrivals : List String) (e : String),
      handleSuggestionRequest authorRes (some (.error e)) verify arrivals =
        authorRes) :=
  ⟨fun _ _ _ _ => rfl, fun _ _ _ => rfl, fun _ _ _ => rfl, fun _ _ _ _ => rfl⟩

/-- C10: the results map holds exactly one boolean per distinct proposed
term (its keys are duplicate-free and range over exactly the proposal's
terms), while the output emits one Suggestion per occurrence of a
verified term — so a duplicated proposal term, as in ["A", "A"], yields
duplicate (type, value) pairs in the final output. -/
theorem C10_duplicates (aiRes : AIResponse) (verify : String → Bool)
    (arrivals : List String) (authorRes : SuggestionResponse)
    (h : arrivals.Perm aiRes.suggestions) :
    ((resultsMapOf arrivals verify).map Prod.fst).Nodup ∧
    (∀ t, t ∈ (resultsMapOf arrivals verify).map Prod.fst ↔
      t ∈ aiRes.suggestions) ∧
    handleSuggestionRequest authorRes (some (.ok aiRes)) verify arrivals =
      ⟨(aiRes.suggestions.filter verify).map
        (fun term => (⟨"author", term⟩ : Suggestion))⟩ ∧
    handleSuggestionRequest ⟨[]⟩ (some (.ok ⟨"", ["A", "A"]⟩))
        (fun _ => true) ["A", "A"] =
      ⟨[⟨"author", "A"⟩, ⟨"author", "A"⟩]⟩ := by
  refine ⟨nodup_keys_resultsMapOf _ _, fun t => ?_,
    handleSuggestionRequest_ok _ _ _ h, rfl⟩
  rw [mem_keys_resultsMapOf, h.mem_iff]

/-- C10 witness: the duplicated proposal ["A", "A"] with both checks
succeeding. -/
theorem C10_witness :
    ((resultsMapOf ["A", "A"] (fun _ => true)).map Prod.fst).Nodup ∧
    (∀ t, t ∈ (resultsMapOf ["A", "A"] (fun _ => true)).map Prod.fst ↔
      t ∈ (AIResponse.mk "" ["A", "A"]).suggestions) ∧
    handleSuggestionRequest ⟨[]⟩ (some (.ok (AIResponse.mk "" ["A", "A"])))
        (fun _ => true) ["A", "A"] =
      ⟨((AIResponse.mk "" ["A", "A"]).suggestions.filter (fun _ => true)).map
        (fun term => (⟨"author", term⟩ : Suggestion))⟩ ∧
    handleSuggestionRequest ⟨[]⟩ (some (.ok ⟨"", ["A", "A"]⟩))
        (fun _ => true) ["A", "A"] =
      ⟨[⟨"author", "A"⟩, ⟨"author", "A"⟩]⟩ :=
  C10_duplicates (AIResponse.mk "" ["A", "A"]) (fun _ => true) ["A", "A"]
    ⟨[]⟩ (List.Perm.refl _)

end Suggestor
